import Mathlib

/-!
Verification of `dirdiff.py` (repository snehring/utils).

The program hashes every file under two directory roots into two digest
maps and reports every key of the first map that is absent from the second
map or mapped to a different digest.

Shallow embedding conventions:
* the bytes of a file are a `List Nat` (each element < 256);
* a Python `dict` is an association list `List (String × List Nat)` with
  assignment semantics of `dictAssign` (replace if present, else append);
* `os.path.join p f` is modelled by `joinPath` for the common case of a
  relative name `f` and a path `p` without a trailing separator;
* the filesystem under a root is an `Entry` tree; opening a path in
  binary read mode succeeds exactly on regular files (`openRead`);
* `multiprocessing.Pool.apply_async` with no error callback and a never
  inspected result silently drops the exception of a task, so a failed
  `hash_directory_file` task leaves the shared dict untouched;
* a worker pool only changes the order in which independent tasks
  complete; completion orders are modelled as permutations of the
  dispatch order.
-/

/-! ## SHA-256 (FIPS 180-4), the model of `hashlib.sha256` -/

/-- Truncation to a 32-bit word. -/
def w32 (n : Nat) : Nat := n % 4294967296

/-- Right rotation of a 32-bit word by `n` places. -/
def rotr (n x : Nat) : Nat := w32 ((x >>> n) + (x % 2 ^ n) * 2 ^ (32 - n))

/-- SHA-256 `Ch` function. -/
def ch32 (x y z : Nat) : Nat := (x &&& y) ^^^ ((x ^^^ 4294967295) &&& z)

/-- SHA-256 `Maj` function. -/
def maj32 (x y z : Nat) : Nat := (x &&& y) ^^^ (x &&& z) ^^^ (y &&& z)

/-- SHA-256 big Sigma-0. -/
def bsig0 (x : Nat) : Nat := rotr 2 x ^^^ rotr 13 x ^^^ rotr 22 x

/-- SHA-256 big Sigma-1. -/
def bsig1 (x : Nat) : Nat := rotr 6 x ^^^ rotr 11 x ^^^ rotr 25 x

/-- SHA-256 small sigma-0. -/
def ssig0 (x : Nat) : Nat := rotr 7 x ^^^ rotr 18 x ^^^ (x >>> 3)

/-- SHA-256 small sigma-1. -/
def ssig1 (x : Nat) : Nat := rotr 17 x ^^^ rotr 19 x ^^^ (x >>> 10)

/-- The 64 SHA-256 round constants (FIPS 180-4 section 4.2.2, written in
decimal). -/
def K256 : List Nat :=
  [1116352408, 1899447441, 3049323471, 3921009573, 961987163, 1508970993,
   2453635748, 2870763221, 3624381080, 310598401, 607225278, 1426881987,
   1925078388, 2162078206, 2614888103, 3248222580, 3835390401, 4022224774,
   264347078, 604807628, 770255983, 1249150122, 1555081692, 1996064986,
   2554220882, 2821834349, 2952996808, 3210313671, 3336571891, 3584528711,
   113926993, 338241895, 666307205, 773529912, 1294757372, 1396182291,
   1695183700, 1986661051, 2177026350, 2456956037, 2730485921, 2820302411,
   3259730800, 3345764771, 3516065817, 3600352804, 4094571909, 275423344,
   430227734, 506948616, 659060556, 883997877, 958139571, 1322822218,
   1537002063, 1747873779, 1955562222, 2024104815, 2227730452, 2361852424,
   2428436474, 2756734187, 3204031479, 3329325298]

/-- The SHA-256 initial hash value (FIPS 180-4 section 5.3.3, written in
decimal). -/
def H256 : List Nat :=
  [1779033703, 3144134277, 1013904242, 2773480762,
   1359893119, 2600822924, 528734635, 1541459225]

/-- The `k` bytes of `n`, big-endian. -/
def beBytes : Nat → Nat → List Nat
  | 0, _ => []
  | k + 1, n => beBytes k (n >>> 8) ++ [n % 256]

/-- A big-endian byte list as a number. -/
def beWord (bs : List Nat) : Nat := bs.foldl (fun acc b => acc * 256 + b) 0

/-- The list split into consecutive chunks of `k` elements (the last chunk
may be shorter); empty for `k = 0`. -/
def chunkList (k : Nat) (l : List Nat) : List (List Nat) :=
  if h : k = 0 ∨ l = [] then [] else
    l.take k :: chunkList k (l.drop k)
termination_by l.length
decreasing_by
  push_neg at h
  have hk : 0 < k := Nat.pos_of_ne_zero h.1
  have hl : 0 < l.length := List.length_pos.mpr h.2
  simp only [List.length_drop]
  omega

/-- SHA-256 message padding: `0x80`, zeros to 56 mod 64, then the bit
length as 8 big-endian bytes. -/
def sha256Pad (msg : List Nat) : List Nat :=
  msg ++ [128] ++ List.replicate ((55 + 64 - msg.length % 64) % 64) 0
      ++ beBytes 8 (8 * msg.length)

/-- Working variables of the SHA-256 compression function. -/
structure Hash8 where
  a : Nat
  b : Nat
  c : Nat
  d : Nat
  e : Nat
  f : Nat
  g : Nat
  h : Nat

/-- One step of the SHA-256 message schedule extension. -/
def scheduleStep (w : List Nat) : List Nat :=
  let n := w.length
  w ++ [w32 (ssig1 (w.getD (n - 2) 0) + w.getD (n - 7) 0
             + ssig0 (w.getD (n - 15) 0) + w.getD (n - 16) 0)]

/-- The 64-word message schedule of one block (given its 16 words). -/
def fullSchedule (w : List Nat) : List Nat :=
  (List.range 48).foldl (fun acc _ => scheduleStep acc) w

/-- One SHA-256 round. -/
def sha256Round (st : Hash8) (kt wt : Nat) : Hash8 :=
  let T1 := w32 (st.h + bsig1 st.e + ch32 st.e st.f st.g + kt + wt)
  let T2 := w32 (bsig0 st.a + maj32 st.a st.b st.c)
  ⟨w32 (T1 + T2), st.a, st.b, st.c, w32 (st.d + T1), st.e, st.f, st.g⟩

/-- The SHA-256 compression function on one 64-byte block. -/
def sha256Compress (H : List Nat) (block : List Nat) : List Nat :=
  let ws := fullSchedule ((chunkList 4 block).map beWord)
  let st0 : Hash8 :=
    ⟨H.getD 0 0, H.getD 1 0, H.getD 2 0, H.getD 3 0,
     H.getD 4 0, H.getD 5 0, H.getD 6 0, H.getD 7 0⟩
  let st := (K256.zip ws).foldl (fun st kw => sha256Round st kw.1 kw.2) st0
  [w32 (H.getD 0 0 + st.a), w32 (H.getD 1 0 + st.b), w32 (H.getD 2 0 + st.c),
   w32 (H.getD 3 0 + st.d), w32 (H.getD 4 0 + st.e), w32 (H.getD 5 0 + st.f),
   w32 (H.getD 6 0 + st.g), w32 (H.getD 7 0 + st.h)]

/-- The SHA-256 digest (32 bytes) of a byte list; models
`hashlib.sha256(full message).digest()`. -/
def sha256 (msg : List Nat) : List Nat :=
  (((chunkList 64 (sha256Pad msg)).foldl sha256Compress H256).map (beBytes 4)).flatten

/-! ## The dirdiff source embedding -/

/-- The byte stream absorbed by `hash.update` across the read loop of
`hash_file`: `chunk = f.read(chunk_size)`, then `while chunk: hash.update(chunk);
chunk = f.read(chunk_size)`. -/
def readAbsorb (chunk_size : Nat) (content : List Nat) : List Nat :=
  if h : content.take chunk_size = [] then []
  else content.take chunk_size ++ readAbsorb chunk_size (content.drop chunk_size)
termination_by content.length
decreasing_by
  rw [List.take_eq_nil_iff] at h
  push_neg at h
  have hk : 0 < chunk_size := Nat.pos_of_ne_zero h.1
  have hl : 0 < content.length := List.length_pos.mpr h.2
  simp only [List.length_drop]
  omega

/-- Model of `hash_file(filename, chunk_size)`: the SHA-256 digest of the bytes the
chunked read loop absorbs. The default chunk size in the source is `2 ^ 20`. -/
def hash_file (content : List Nat) (chunk_size : Nat) : List Nat :=
  sha256 (readAbsorb chunk_size content)

/-- Model of `os.path.join p f` for a relative name `f` and a path `p` without a
trailing separator. -/
def joinPath (p f : String) : String := p ++ "/" ++ f

/-- A directory entry: a regular file with its bytes, a subdirectory with
its named children, or a direct child of another kind. -/
inductive Entry where
  | file (content : List Nat)
  | dir (children : List (String × Entry))
  | other
deriving Repr

/-- Model of `open(path, mode rb)`: succeeds exactly on regular files; on
anything else it raises an `OSError`. -/
def openRead : Entry → Option (List Nat)
  | Entry.file c => some c
  | _ => none

/-- Python dict assignment `d[k] = v` on an association list: replace the
value under an existing key, else append the new pair. -/
def dictAssign (d : List (String × List Nat)) (k : String) (v : List Nat) :
    List (String × List Nat) :=
  if d.any (fun kv => kv.1 = k) then
    d.map (fun kv => if kv.1 = k then (k, v) else kv)
  else d ++ [(k, v)]

/-- Python `d.get(k)`: the stored value, or `None` when absent. -/
def dictGet (d : List (String × List Nat)) (k : String) : Option (List Nat) :=
  d.lookup k

/-- Model of `hash_directory_file(d, path, filename)`: store the digest of the file
at `full_path = os.path.join(path, filename)` in `d` under `full_path` as
the key. `content?` is what `open(full_path)` yields; `none` is the
`IOError` case, which raises before the dict is touched. `hash_file` is
called with its default chunk size. -/
def hash_directory_file (d : List (String × List Nat)) (path filename : String)
    (content? : Option (List Nat)) : Option (List (String × List Nat)) :=
  content?.map (fun c => dictAssign d (joinPath path filename) (hash_file c (2 ^ 20)))

/-- One `apply_async(hash_directory_file, (d, path, f))` unit of work:
the scan directory, the filename, and the `open` outcome for the joined
path. -/
abbrev HashTask := String × String × Option (List Nat)

/-- The build phase run over the dispatched hashing tasks. A task whose
open or read raises fails inside its worker; `apply_async` with no error
callback and a never-inspected result drops the exception, so the shared
dict is left untouched by that task and every other task still runs. -/
def buildTasks (tasks : List HashTask) : List (String × List Nat) :=
  tasks.foldl
    (fun d t =>
      match hash_directory_file d t.1 t.2.1 t.2.2 with
      | some d2 => d2
      | none => d) []

/-- Flat mode (`os.listdir(root)`): every direct child name — regular file
or not — is dispatched with the root as the scan directory. -/
def flatTasks (root : String) (children : List (String × Entry)) : List HashTask :=
  children.map (fun ne => (root, ne.1, openRead ne.2))

/-- The flat-mode digest map of one root. -/
def buildFlat (root : String) (children : List (String × Entry)) :
    List (String × List Nat) :=
  buildTasks (flatTasks root children)

/-- The non-directory children of a directory: the `files` component of an
`os.walk` triple, kept with their entries. -/
def listFiles (children : List (String × Entry)) : List (String × Entry) :=
  children.filter (fun ne => match ne.2 with | Entry.dir _ => false | _ => true)

mutual

/-- Model of `os.walk path` over the tree `e`: the `(path, files)` triples in
top-down order; walking a non-directory yields nothing. -/
def walk (path : String) (e : Entry) : List (String × List (String × Entry)) :=
  match e with
  | Entry.dir children => (path, listFiles children) :: walkChildren path children
  | _ => []

/-- Walk each child subtree in order (only subdirectories contribute). -/
def walkChildren (path : String) (children : List (String × Entry)) :
    List (String × List (String × Entry)) :=
  match children with
  | [] => []
  | ne :: rest => walk (joinPath path ne.1) ne.2 ++ walkChildren path rest

end

/-- Recursive mode: each `(path, files)` triple of the walk dispatches one
hashing task per file, in order. -/
def recTasks (root : String) (e : Entry) : List HashTask :=
  ((walk root e).map (fun pe => pe.2.map (fun ne => (pe.1, ne.1, openRead ne.2)))).flatten

/-- The recursive-mode digest map of one root. -/
def buildRecursive (root : String) (e : Entry) : List (String × List Nat) :=
  buildTasks (recTasks root e)

/-- Model of `check_file(f, dir1, dir2)`: `f` when `f` is not a key of `dir2` or
the stored hashes differ; otherwise Python falls off the end and returns
`None`. -/
def check_file (f : String) (dir1 dir2 : List (String × List Nat)) : Option String :=
  if f ∉ dir2.map Prod.fst then some f
  else if dictGet dir1 f ≠ dictGet dir2 f then some f
  else none

/-- Model of `compare_directories` with tasks completing in the given `order`: the
callback appends each non-`None` `check_file` result as it arrives. Any
pool, of any size, completes the dispatched tasks in some permutation of
the dispatch order `dir1_files.keys()`. -/
def compare_on (order : List String) (dir1_files dir2_files : List (String × List Nat)) :
    List String :=
  order.filterMap (fun k => check_file k dir1_files dir2_files)

/-- Model of `compare_directories(dir1_files, dir2_files, threads=1)`: one
`check_file` task per key of `dir1_files`; with the sequential pool the
results arrive in dispatch order. `threads` only sets the pool size, which
at most permutes the completion order (see `compare_on`). -/
def compare_directories (dir1_files dir2_files : List (String × List Nat))
    (threads : Nat) : List String :=
  compare_on (dir1_files.map Prod.fst) dir1_files dir2_files

/-- Model of `main` in flat mode, after argument parsing and path validation: build
both digest maps, then compare, with the default sequential pool. -/
def mainFlat (dir1 dir2 : String) (tree1 tree2 : List (String × Entry)) : List String :=
  compare_directories (buildFlat dir1 tree1) (buildFlat dir2 tree2) 1

/-- Model of `main` in recursive mode (the recursive flag set). -/
def mainRecursive (dir1 dir2 : String) (tree1 tree2 : Entry) : List String :=
  compare_directories (buildRecursive dir1 tree1) (buildRecursive dir2 tree2) 1

/-- Generalization of `buildTasks` to an arbitrary starting dict: its
`foldl` used by the proofs below. -/
def buildTasksFrom (d : List (String × List Nat)) (tasks : List HashTask) :
    List (String × List Nat) :=
  tasks.foldl
    (fun d t =>
      match hash_directory_file d t.1 t.2.1 t.2.2 with
      | some d2 => d2
      | none => d) d

/-! ## Helper lemmas -/

theorem buildTasks_eq_from (tasks : List HashTask) :
    buildTasks tasks = buildTasksFrom [] tasks := rfl

theorem buildTasksFrom_append (d : List (String × List Nat)) (ts1 ts2 : List HashTask) :
    buildTasksFrom d (ts1 ++ ts2) = buildTasksFrom (buildTasksFrom d ts1) ts2 := by
  unfold buildTasksFrom
  rw [List.foldl_append]

theorem buildTasksFrom_none (d : List (String × List Nat)) (p f : String)
    (ts : List HashTask) :
    buildTasksFrom d ((p, f, none) :: ts) = buildTasksFrom d ts := rfl

/-- With a positive chunk size the read loop absorbs exactly the bytes of
the file. -/
theorem readAbsorb_of_pos (cs : Nat) (hcs : 0 < cs) (content : List Nat) :
    readAbsorb cs content = content := by
  have H : ∀ n (l : List Nat), l.length ≤ n → readAbsorb cs l = l := by
    intro n
    induction n with
    | zero =>
      intro l hle
      have hl : l = [] := List.eq_nil_of_length_eq_zero (Nat.le_zero.mp hle)
      rw [readAbsorb]
      simp [hl]
    | succ n ih =>
      intro l hle
      rw [readAbsorb]
      split
      next ht =>
        rw [List.take_eq_nil_iff] at ht
        rcases ht with h0 | hnil
        · omega
        · rw [hnil]
      next ht =>
        rw [List.take_eq_nil_iff] at ht
        push_neg at ht
        have hl : 0 < l.length := List.length_pos.mpr ht.2
        have : (l.drop cs).length ≤ n := by
          simp only [List.length_drop]
          omega
        rw [ih _ this]
        exact List.take_append_drop cs l
  exact H content.length content le_rfl

/-- The function `check_file` returns the queried key or nothing. -/
theorem check_file_some_or_none (f : String) (dir1 dir2 : List (String × List Nat)) :
    check_file f dir1 dir2 = some f ∨ check_file f dir1 dir2 = none := by
  unfold check_file
  split
  · exact Or.inl rfl
  split
  · exact Or.inl rfl
  · exact Or.inr rfl

/-- A reported key comes from the completion order. -/
theorem mem_compare_on (x : String) (order : List String)
    (dir1 dir2 : List (String × List Nat)) (hx : x ∈ compare_on order dir1 dir2) :
    x ∈ order := by
  unfold compare_on at hx
  rcases List.mem_filterMap.mp hx with ⟨k, hk, hck⟩
  rcases check_file_some_or_none k dir1 dir2 with h | h
  · rw [h] at hck
    cases hck
    exact hk
  · rw [h] at hck
    cases hck

/-- The report is a sublist of the completion order. -/
theorem compare_on_sublist (order : List String) (dir1 dir2 : List (String × List Nat)) :
    List.Sublist (compare_on order dir1 dir2) order := by
  induction order with
  | nil => exact List.Sublist.refl []
  | cons k rest ih =>
    show List.Sublist (List.filterMap _ (k :: rest)) (k :: rest)
    rw [List.filterMap_cons]
    rcases check_file_some_or_none k dir1 dir2 with h | h
    · rw [h]
      exact List.Sublist.cons₂ k ih
    · rw [h]
      exact List.Sublist.cons k ih

/-- Dict assignment only ever adds the assigned key. -/
theorem mem_keys_dictAssign (d : List (String × List Nat)) (k x : String) (v : List Nat) :
    x ∈ (dictAssign d k v).map Prod.fst ↔ x ∈ d.map Prod.fst ∨ x = k := by
  unfold dictAssign
  split
  next hany =>
    have hkeys : (d.map (fun kv => if kv.1 = k then (k, v) else kv)).map Prod.fst
        = d.map Prod.fst := by
      rw [List.map_map]
      apply List.map_congr_left
      intro kv _
      by_cases hk : kv.1 = k
      · simp [hk]
      · simp [hk]
    rw [hkeys]
    constructor
    · exact Or.inl
    · rintro (hx | rfl)
      · exact hx
      · rcases List.any_eq_true.mp hany with ⟨kv, hkv, hkvk⟩
        have : kv.1 = x := of_decide_eq_true hkvk
        rw [← this]
        exact List.mem_map.mpr ⟨kv, hkv, rfl⟩
  next =>
    simp [List.map_append]

/-- Every key of a built map comes from a task whose open and read
succeeded, keyed by the joined path of that task. -/
theorem mem_keys_buildTasksFrom (tasks : List HashTask) (d : List (String × List Nat))
    (k : String) (hk : k ∈ (buildTasksFrom d tasks).map Prod.fst) :
    k ∈ d.map Prod.fst ∨
      ∃ t ∈ tasks, t.2.2 ≠ none ∧ k = joinPath t.1 t.2.1 := by
  induction tasks generalizing d with
  | nil => exact Or.inl hk
  | cons t ts ih =>
    have hstep : buildTasksFrom d (t :: ts)
        = buildTasksFrom
            (match hash_directory_file d t.1 t.2.1 t.2.2 with
             | some d2 => d2
             | none => d) ts := rfl
    rw [hstep] at hk
    rcases ih _ hk with hmem | ⟨t2, ht2, hnone, hkey⟩
    · rcases ht : t.2.2 with _ | c
      · rw [ht] at hmem
        simp only [hash_directory_file, Option.map_none] at hmem
        exact Or.inl hmem
      · rw [ht] at hmem
        simp only [hash_directory_file, Option.map_some] at hmem
        rcases (mem_keys_dictAssign d (joinPath t.1 t.2.1) k _).mp hmem with hd | rfl
        · exact Or.inl hd
        · exact Or.inr ⟨t, List.mem_cons_self t ts, by simp [ht], rfl⟩
    · exact Or.inr ⟨t2, List.mem_cons_of_mem t ht2, hnone, hkey⟩

/-- Shape of a dispatched flat-mode task. -/
theorem mem_flatTasks (root : String) (children : List (String × Entry)) (t : HashTask)
    (ht : t ∈ flatTasks root children) :
    ∃ ne ∈ children, t = (root, ne.1, openRead ne.2) := by
  unfold flatTasks at ht
  rcases List.mem_map.mp ht with ⟨ne, hne, rfl⟩
  exact ⟨ne, hne, rfl⟩

/-- Shape of a dispatched recursive-mode task. -/
theorem mem_recTasks (root : String) (e : Entry) (t : HashTask)
    (ht : t ∈ recTasks root e) :
    ∃ pe ∈ walk root e, ∃ ne ∈ pe.2, t = (pe.1, ne.1, openRead ne.2) := by
  unfold recTasks at ht
  rcases List.mem_flatten.mp ht with ⟨l, hl, htl⟩
  rcases List.mem_map.mp hl with ⟨pe, hpe, rfl⟩
  rcases List.mem_map.mp htl with ⟨ne, hne, rfl⟩
  exact ⟨pe, hpe, ne, hne, rfl⟩

/-- Joining a fixed directory is injective in the filename. -/
theorem joinPath_right_inj (p a b : String) (h : joinPath p a = joinPath p b) : a = b := by
  unfold joinPath at h
  have hdata := congrArg String.data h
  simp only [String.data_append] at hdata
  have := List.append_cancel_left hdata
  exact String.ext this

/-- In a list with distinct keys the key determines the entry. -/
theorem nodup_keys_eq {β : Type} (l : List (String × β))
    (hnodup : (l.map Prod.fst).Nodup) (n : String) (a b : β)
    (ha : (n, a) ∈ l) (hb : (n, b) ∈ l) : a = b := by
  induction l with
  | nil => cases ha
  | cons hd tl ih =>
    rw [List.map_cons, List.nodup_cons] at hnodup
    rcases List.mem_cons.mp ha with rfl | ha2
    · rcases List.mem_cons.mp hb with hbe | hb2
      · exact (congrArg Prod.snd hbe).symm
      · exact absurd (List.mem_map.mpr ⟨(n, b), hb2, rfl⟩) hnodup.1
    · rcases List.mem_cons.mp hb with rfl | hb2
      · exact absurd (List.mem_map.mpr ⟨(n, a), ha2, rfl⟩) hnodup.1
      · exact ih hnodup.2 ha2 hb2

/-! ## Claim theorems -/

/-- C1: fails on the code. Both roots hold a file `a` with the same bytes
(`"hello"`), yet the build-then-compare pipeline still reports it: the maps
are keyed by `os.path.join(root, name)`, so the key `d1/a` of the first
map is never found among the keys `d2/a` of the second and `check_file` returns
it as missing. -/
theorem identical_content_still_reported :
    mainFlat "d1" "d2" [("a", Entry.file [104, 101, 108, 108, 111])]
      [("a", Entry.file [104, 101, 108, 108, 111])] = ["d1/a"] := by
  rfl

/-- C2: fails on the code. The spec scenario `dir1 = (a: hello, b: world)`,
`dir2 = (a: hello, b: WORLD)` should report exactly `b`, but the pipeline
reports both files: the root-prefixed keys `d1/a` and `d1/b` are absent
from the keys `d2/a`, `d2/b` of the second map. -/
theorem scenario_reports_both_files :
    mainFlat "d1" "d2"
      [("a", Entry.file [104, 101, 108, 108, 111]), ("b", Entry.file [119, 111, 114, 108, 100])]
      [("a", Entry.file [104, 101, 108, 108, 111]), ("b", Entry.file [87, 79, 82, 76, 68])]
      = ["d1/a", "d1/b"] := by
  rfl

/-- C3 counterexample: in flat mode the digest-map key for the file `a`
of root `d1` is `d1/a`, not the bare filename `a`. -/
theorem flat_key_is_not_bare_filename :
    (buildFlat "d1" [("a", Entry.file [104, 105])]).map Prod.fst = ["d1/a"] ∧
    ("d1/a" : String) ≠ "a" := by
  constructor
  · rfl
  · decide

/-- C3 amended: every key stored in the digest map is the join of the scan
directory and the filename — `root/filename` in flat mode, and
`walkdir/filename` in recursive mode where `walkdir` is the `os.walk`
directory of that file (a path that itself starts at the root). It is
neither a bare filename nor a path relative to the root. -/
theorem digest_map_keys_are_joined_scan_paths (root : String)
    (children : List (String × Entry)) (e : Entry) :
    (∀ k ∈ (buildFlat root children).map Prod.fst,
        ∃ n ∈ children.map Prod.fst, k = joinPath root n) ∧
    (∀ k ∈ (buildRecursive root e).map Prod.fst,
        ∃ pe ∈ walk root e, ∃ n ∈ pe.2.map Prod.fst, k = joinPath pe.1 n) := by
  constructor
  · intro k hk
    rw [buildFlat, buildTasks_eq_from] at hk
    rcases mem_keys_buildTasksFrom _ _ _ hk with hnil | ⟨t, ht, _, rfl⟩
    · exact absurd hnil (by simp)
    · rcases mem_flatTasks root children t ht with ⟨ne, hne, rfl⟩
      exact ⟨ne.1, List.mem_map.mpr ⟨ne, hne, rfl⟩, rfl⟩
  · intro k hk
    rw [buildRecursive, buildTasks_eq_from] at hk
    rcases mem_keys_buildTasksFrom _ _ _ hk with hnil | ⟨t, ht, _, rfl⟩
    · exact absurd hnil (by simp)
    · rcases mem_recTasks root e t ht with ⟨pe, hpe, ne, hne, rfl⟩
      exact ⟨pe, hpe, ne.1, List.mem_map.mpr ⟨ne, hne, rfl⟩, rfl⟩

/-- Witness for `digest_map_keys_are_joined_scan_paths` at a concrete
root and child list. -/
theorem digest_map_keys_are_joined_scan_paths_witness :
    ("d1/a" ∈ (buildFlat "d1" [("a", Entry.file [104])]).map Prod.fst) ∧
    ∃ n ∈ ([("a", Entry.file [104])].map Prod.fst), ("d1/a" : String) = joinPath "d1" n :=
  ⟨by decide,
   (digest_map_keys_are_joined_scan_paths "d1" [("a", Entry.file [104])] Entry.other).1
     "d1/a" (by decide)⟩

/-- C4: a key of the first completed digest map with no equal key in the
second map is always reported by the comparison. -/
theorem missing_key_is_reported (dir1_files dir2_files : List (String × List Nat))
    (threads : Nat) (k : String) (hA : k ∈ dir1_files.map Prod.fst)
    (hB : k ∉ dir2_files.map Prod.fst) :
    k ∈ compare_directories dir1_files dir2_files threads := by
  unfold compare_directories compare_on
  refine List.mem_filterMap.mpr ⟨k, hA, ?_⟩
  unfold check_file
  rw [if_pos hB]

/-- Witness for `missing_key_is_reported`. -/
theorem missing_key_is_reported_witness :
    ("k" ∈ ([(("k" : String), [(1 : Nat)])]).map Prod.fst) ∧
    "k" ∈ compare_directories [("k", [1])] [] 1 :=
  ⟨by decide, missing_key_is_reported [("k", [1])] [] 1 "k" (by decide) (by decide)⟩

/-- C5: the comparison is directional. A key absent from the first map is
never reported (in particular no key that only the second map has), and an
empty first map yields an empty report whatever the second map holds. -/
theorem comparison_is_directional (dir1_files dir2_files : List (String × List Nat))
    (threads : Nat) :
    (∀ k, k ∉ dir1_files.map Prod.fst →
        k ∉ compare_directories dir1_files dir2_files threads) ∧
    (dir1_files = [] → compare_directories dir1_files dir2_files threads = []) := by
  constructor
  · intro k hk hmem
    exact hk (mem_compare_on k _ _ _ hmem)
  · rintro rfl
    rfl

/-- Witness for `comparison_is_directional`: a key only the second map has
is not reported, and an empty first map gives an empty report. -/
theorem comparison_is_directional_witness :
    ("d2/b" ∉ ([(("d1/a" : String), [(1 : Nat)])]).map Prod.fst) ∧
    "d2/b" ∉ compare_directories [("d1/a", [1])] [("d2/b", [2])] 1 ∧
    compare_directories [] [("d2/b", [2])] 1 = [] :=
  ⟨by decide,
   (comparison_is_directional [("d1/a", [1])] [("d2/b", [2])] 1).1 "d2/b" (by decide),
   (comparison_is_directional [] [("d2/b", [2])] 1).2 rfl⟩

/-- C6: hashing is deterministic and chunk-size independent: for any two
positive chunk sizes `hash_file` gives the same digest, the SHA-256 digest
of the full content. -/
theorem hash_file_chunk_size_independent (content : List Nat) (c1 c2 : Nat)
    (h1 : 0 < c1) (h2 : 0 < c2) :
    hash_file content c1 = hash_file content c2 ∧
    hash_file content c1 = sha256 content := by
  unfold hash_file
  rw [readAbsorb_of_pos c1 h1, readAbsorb_of_pos c2 h2]
  exact ⟨rfl, rfl⟩

/-- Witness for `hash_file_chunk_size_independent`. -/
theorem hash_file_chunk_size_independent_witness :
    (0 < 1 ∧ 0 < 2) ∧
    hash_file [97, 98, 99] 1 = hash_file [97, 98, 99] 2 ∧
    hash_file [97, 98, 99] 1 = sha256 [97, 98, 99] :=
  ⟨⟨by decide, by decide⟩,
   hash_file_chunk_size_independent [97, 98, 99] 1 2 (by decide) (by decide)⟩

/-- C7: a single failed open/read (the `none` task) leaves the build of
every other entry untouched — the run proceeds as if the failing task had
never been dispatched — and, when no other task is keyed by the same
joined path, the key of that file never enters the digest map. -/
theorem per_file_io_error_contained (pre post : List HashTask) (p f : String)
    (hother : ∀ t ∈ pre ++ post, joinPath t.1 t.2.1 ≠ joinPath p f) :
    buildTasks (pre ++ (p, f, none) :: post) = buildTasks (pre ++ post) ∧
    joinPath p f ∉ (buildTasks (pre ++ (p, f, none) :: post)).map Prod.fst := by
  have heq : buildTasks (pre ++ (p, f, none) :: post) = buildTasks (pre ++ post) := by
    rw [buildTasks_eq_from, buildTasks_eq_from, buildTasksFrom_append,
      buildTasksFrom_append, buildTasksFrom_none]
  refine ⟨heq, ?_⟩
  rw [heq, buildTasks_eq_from]
  intro hk
  rcases mem_keys_buildTasksFrom _ _ _ hk with hnil | ⟨t, ht, _, hkey⟩
  · exact absurd hnil (by simp)
  · exact hother t ht hkey.symm

/-- Witness for `per_file_io_error_contained`: a failing read of `d1/a`
leaves the successful entry for `d1/x` in place and adds no key `d1/a`. -/
theorem per_file_io_error_contained_witness :
    (∀ t ∈ ([(("d1" : String), ("x" : String), some [(1 : Nat)])]),
        joinPath t.1 t.2.1 ≠ joinPath "d1" "a") ∧
    buildTasks [("d1", "x", some [1]), ("d1", "a", none)]
      = buildTasks [("d1", "x", some [1])] ∧
    joinPath "d1" "a" ∉
      (buildTasks [("d1", "x", some [1]), ("d1", "a", none)]).map Prod.fst :=
  ⟨by decide,
   per_file_io_error_contained [("d1", "x", some [1])] [] "d1" "a" (by decide)⟩

/-- C8: the worker-pool size cannot change the contents of the report. A pool
of any size completes the dispatched `check_file` tasks in some
permutation of the dispatch order, and any two completion orders give
reports that are permutations of each other; the embedded sequential
`compare_directories` itself is independent of `threads`. -/
theorem report_contents_pool_size_invariant (dir1_files dir2_files : List (String × List Nat))
    (M N : Nat) (order1 order2 : List String)
    (h1 : order1.Perm (dir1_files.map Prod.fst))
    (h2 : order2.Perm (dir1_files.map Prod.fst)) :
    (compare_on order1 dir1_files dir2_files).Perm
      (compare_on order2 dir1_files dir2_files) ∧
    (compare_directories dir1_files dir2_files M).Perm
      (compare_directories dir1_files dir2_files N) :=
  ⟨List.Perm.filterMap _ (h1.trans h2.symm), List.Perm.refl _⟩

/-- Witness for `report_contents_pool_size_invariant` at two concrete
completion orders of a two-key map. -/
theorem report_contents_pool_size_invariant_witness :
    (["b", "a"].Perm ([(("a" : String), [(1 : Nat)]), ("b", [2])].map Prod.fst)) ∧
    (compare_on ["b", "a"] [("a", [1]), ("b", [2])] []).Perm
      (compare_on ["a", "b"] [("a", [1]), ("b", [2])] []) ∧
    (compare_directories [("a", [1]), ("b", [2])] [] 1).Perm
      (compare_directories [("a", [1]), ("b", [2])] [] 4) :=
  ⟨by decide,
   report_contents_pool_size_invariant [("a", [1]), ("b", [2])] [] 1 4
     ["b", "a"] ["a", "b"] (by decide) (by decide)⟩

/-- C9: in flat mode a direct child whose open fails — a subdirectory or
other non-regular child — never contributes its key to the digest map, and
hence never appears in the report of the pipeline. -/
theorem non_regular_children_never_reported (dir1 dir2 : String)
    (c1 c2 : List (String × Entry)) (n : String) (e : Entry)
    (hnodup : (c1.map Prod.fst).Nodup) (hmem : (n, e) ∈ c1)
    (hopen : openRead e = none) :
    joinPath dir1 n ∉ (buildFlat dir1 c1).map Prod.fst ∧
    joinPath dir1 n ∉ mainFlat dir1 dir2 c1 c2 := by
  have hkey : joinPath dir1 n ∉ (buildFlat dir1 c1).map Prod.fst := by
    intro hk
    rw [buildFlat, buildTasks_eq_from] at hk
    rcases mem_keys_buildTasksFrom _ _ _ hk with hnil | ⟨t, ht, hsucc, hkeq⟩
    · exact absurd hnil (by simp)
    · rcases mem_flatTasks dir1 c1 t ht with ⟨ne, hne, rfl⟩
      have hn : n = ne.1 := joinPath_right_inj dir1 n ne.1 hkeq
      have hne2 : (n, ne.2) ∈ c1 := by
        rw [hn]
        exact (Prod.mk.eta ▸ hne)
      have he : e = ne.2 := nodup_keys_eq c1 hnodup n e ne.2 hmem hne2
      rw [← he, hopen] at hsucc
      exact hsucc rfl
  refine ⟨hkey, ?_⟩
  intro hrep
  exact hkey (mem_compare_on _ _ _ _ hrep)

/-- Witness for `non_regular_children_never_reported`: the subdirectory
`s` of root `d1` is neither a key of the map nor reported. -/
theorem non_regular_children_never_reported_witness :
    ((("s" : String), Entry.dir []) ∈ [("a", Entry.file [104]), ("s", Entry.dir [])]) ∧
    joinPath "d1" "s" ∉
      (buildFlat "d1" [("a", Entry.file [104]), ("s", Entry.dir [])]).map Prod.fst ∧
    joinPath "d1" "s" ∉
      mainFlat "d1" "d2" [("a", Entry.file [104]), ("s", Entry.dir [])] [] :=
  ⟨by simp,
   non_regular_children_never_reported "d1" "d2"
     [("a", Entry.file [104]), ("s", Entry.dir [])] [] "s" (Entry.dir [])
     (by decide) (by simp) rfl⟩

/-- C10: every reported element is a key of the first map; the report is
duplicate-free whenever the keys of the first map are (as the keys of a
Python dict always are); and `check_file` only ever returns the key itself or
nothing. -/
theorem report_is_nodup_subset_of_first_map (dir1_files dir2_files : List (String × List Nat))
    (threads : Nat) :
    (∀ x ∈ compare_directories dir1_files dir2_files threads, x ∈ dir1_files.map Prod.fst) ∧
    ((dir1_files.map Prod.fst).Nodup →
        (compare_directories dir1_files dir2_files threads).Nodup) ∧
    (∀ f, check_file f dir1_files dir2_files = some f ∨
        check_file f dir1_files dir2_files = none) := by
  refine ⟨?_, ?_, ?_⟩
  · intro x hx
    exact mem_compare_on x _ _ _ hx
  · intro hnodup
    exact List.Nodup.sublist (compare_on_sublist _ _ _) hnodup
  · intro f
    exact check_file_some_or_none f dir1_files dir2_files

/-- Witness for `report_is_nodup_subset_of_first_map` on a concrete map. -/
theorem report_is_nodup_subset_of_first_map_witness :
    (compare_directories [(("a" : String), [(1 : Nat)])] [] 1).Nodup ∧
    (check_file "a" [("a", [1])] [] = some "a" ∨
      check_file "a" [("a", [1])] [] = none) :=
  ⟨(report_is_nodup_subset_of_first_map [("a", [1])] [] 1).2.1 (by decide),
   (report_is_nodup_subset_of_first_map [("a", [1])] [] 1).2.2 "a"⟩
